import Mathlib

/-!
Shallow embedding of `src/purestate/pure_state_optimization.py` (the
`PureStateOptimization` transpiler pass and its `WireStatus` helper class).

Angles are modelled as exact real numbers.  Python's `math.fmod`, `%`,
`round` and the numpy tolerance checks are given explicit real-valued
definitions below.  The quaternion Euler-angle engine
(`qiskit.quantum_info.operators.Quaternion`) is an external collaborator
that is not part of this repository; it is modelled from the spec,
see `toZYZ` below.
-/

open Real

/-- Wire-state triple (theta, phi, lambda), as stored by `WireStatus._dict`. -/
abbrev Triple := ℝ × ℝ × ℝ

/-- Truncation toward zero on the reals, the integer part used by `math.fmod`. -/
noncomputable def rtrunc (r : ℝ) : ℤ := if 0 ≤ r then ⌊r⌋ else ⌈r⌉

/-- Real-valued model of Python `math.fmod a b`: remainder with the sign of `a`. -/
noncomputable def fmod (a b : ℝ) : ℝ := a - b * rtrunc (a / b)

/-- Real-valued model of Python `a % b`: remainder with the sign of `b`. -/
noncomputable def pymod (a b : ℝ) : ℝ := a - b * ⌊a / b⌋

/-- Real-valued model of Python `round`: nearest integer, ties to even. -/
noncomputable def pyRound (r : ℝ) : ℤ :=
  if Int.fract r < 1/2 then ⌊r⌋
  else if 1/2 < Int.fract r then ⌊r⌋ + 1
  else if ⌊r⌋ % 2 = 0 then ⌊r⌋ else ⌊r⌋ + 1

/-- Two-argument arctangent `atan2 b a` (angle of the point `(a, b)`), the
function `math.atan2` used by the Euler-angle extraction; realised as the
complex argument, whose range `(-pi, pi]` and conventions agree with it. -/
noncomputable def atan2 (b a : ℝ) : ℝ := Complex.arg ⟨a, b⟩

/-- Chopping of `yzy_to_zyz` (line 345): magnitudes below `_CHOP_THRESHOLD = 1e-15`
are replaced by exactly `0`. -/
noncomputable def chop (a : ℝ) : ℝ := if |a| < 1/10^15 then 0 else a

/-- Quaternion with real components, in `(w, x, y, z)` order. -/
structure Quat where
  w : ℝ
  x : ℝ
  y : ℝ
  z : ℝ

/-- Hamilton product of two quaternions. -/
noncomputable def qmul (a b : Quat) : Quat :=
  ⟨a.w*b.w - a.x*b.x - a.y*b.y - a.z*b.z,
   a.w*b.x + a.x*b.w + a.y*b.z - a.z*b.y,
   a.w*b.y - a.x*b.z + a.y*b.w + a.z*b.x,
   a.w*b.z + a.x*b.y - a.y*b.x + a.z*b.w⟩

/-- Unit quaternion of a rotation by `t` about the y axis. -/
noncomputable def qy (t : ℝ) : Quat := ⟨Real.cos (t/2), 0, Real.sin (t/2), 0⟩

/-- Unit quaternion of a rotation by `t` about the z axis. -/
noncomputable def qz (t : ℝ) : Quat := ⟨Real.cos (t/2), 0, 0, Real.sin (t/2)⟩

/-- Componentwise inner product of two quaternions (`data.dot` in the source). -/
noncomputable def qdot (a b : Quat) : ℝ := a.w*b.w + a.x*b.x + a.y*b.y + a.z*b.z

/-- Quaternion of the product `Ry(t1) * Rz(xi) * Ry(t2)` (Euler construction
`from_euler([t1, xi, t2], 'yzy')`). -/
noncomputable def fromYZY (t1 xi t2 : ℝ) : Quat := qmul (qmul (qy t1) (qz xi)) (qy t2)

/-- Quaternion of the product `Rz(e0) * Ry(e1) * Rz(e2)` (Euler construction
`from_euler([e0, e1, e2], 'zyz')`). -/
noncomputable def fromZYZ (e0 e1 e2 : ℝ) : Quat := qmul (qmul (qz e0) (qy e1)) (qz e2)

/-- Modelled from the spec: the Z·Y·Z Euler-angle re-extraction of a unit
quaternion performed by the external collaborator
`qiskit.quantum_info.operators.Quaternion.to_zyz` (not part of this
repository); spec section 4.1 describes it as building the rotation matrix of
the unit quaternion and re-extracting a Z·Y·Z Euler triple from it.  The
result is `(euler0, euler1, euler2)` with matrix entry `m22 = 1 - 2(x^2+y^2)`
deciding between the generic branch (`theta = arccos m22`) and the two
degenerate branches `m22 = ±1`. -/
noncomputable def toZYZ (q : Quat) : ℝ × ℝ × ℝ :=
  if 1 - 2*(q.x^2 + q.y^2) < 1 then
    if -1 < 1 - 2*(q.x^2 + q.y^2) then
      (atan2 (2*(q.y*q.z - q.x*q.w)) (2*(q.x*q.z + q.y*q.w)),
       Real.arccos (1 - 2*(q.x^2 + q.y^2)),
       atan2 (2*(q.y*q.z + q.x*q.w)) (-(2*(q.x*q.z - q.y*q.w))))
    else
      (-(atan2 (2*(q.x*q.y + q.z*q.w)) (1 - 2*(q.x^2 + q.z^2))), Real.pi, 0)
  else
    (atan2 (2*(q.x*q.y + q.z*q.w)) (1 - 2*(q.x^2 + q.z^2)), 0, 0)

/-- Error kinds raised by the pass (`TranspilerError` in the source,
distinguished by message). -/
inductive PassError where
  | unsupportedGate
  | angleOutOfRange
  | rotationConsistency
deriving DecidableEq

/-- Embedding of `WireStatus.yzy_to_zyz` (lines 323-347): build the Y·Z·Y
quaternion, re-extract Z·Y·Z angles, cross-check the two quaternions' inner
product against 1 with `np.allclose(abs_inner, 1, eps)` (`eps = 1e-9` is the
relative tolerance, the absolute tolerance keeps its numpy default `1e-8`),
then chop tiny angles; the output order is `(euler[1], euler[0], euler[2])`. -/
noncomputable def yzy_to_zyz (xi theta1 theta2 : ℝ) : Except PassError (ℝ × ℝ × ℝ) :=
  let qa := fromYZY theta1 xi theta2
  let e := toZYZ qa
  let qb := fromZYZ e.1 e.2.1 e.2.2
  if ¬ (|(|qdot qb qa|) - 1| ≤ 1/10^8 + 1/10^9 * 1) then .error .rotationConsistency
  else .ok (chop e.2.1, chop e.1, chop e.2.2)

/-- Snapping of one angle in `WireStatus.round_to_half_pi` (lines 355-360):
if the `fmod` remainder by `pi/2` has magnitude below `_CHOP_THRESHOLD = 1e-15`,
replace the angle by `int(round(a / (pi/2))) * pi/2`. -/
noncomputable def snapHalfPi (a : ℝ) : ℝ :=
  if |fmod a (Real.pi/2)| < 1/10^15 then (pyRound (a / (Real.pi/2)) : ℝ) * (Real.pi/2)
  else a

/-- Embedding of `WireStatus.round_to_half_pi` (lines 349-363): raise for
`thetar > pi`, snap each angle near a multiple of `pi/2`, then reduce `phir`
and `lambdar` modulo `2*pi` (theta is not reduced). -/
noncomputable def round_to_half_pi (thetar phir lambdar : ℝ) : Except PassError Triple :=
  if Real.pi < thetar then .error .angleOutOfRange
  else .ok (snapHalfPi thetar,
            pymod (snapHalfPi phir) (2*Real.pi),
            pymod (snapHalfPi lambdar) (2*Real.pi))

/-- Embedding of `WireStatus.u3` (lines 261-269): compose the gate triple `p`
onto the current wire triple `cur`.  With `p = (theta1, phi1, lambda1)` and
`cur = (theta2, phi2, lambda2)` it solves `yzy_to_zyz(lambda1 + phi2, theta1,
theta2)` and normalizes `(thetap, phi1 + phip, lambda2 + lambdap)`. -/
noncomputable def u3_update (p cur : Triple) : Except PassError Triple := do
  let e ← yzy_to_zyz (p.2.2 + cur.2.1) p.1 cur.1
  round_to_half_pi e.1 (p.2.1 + e.2.1) (cur.2.2 + e.2.2)

/-- Embedding of `WireStatus.u1` (line 255). -/
noncomputable def u1_update (p : ℝ) (cur : Triple) : Except PassError Triple :=
  u3_update (0, 0, p) cur

/-- Embedding of `WireStatus.u2` (line 258). -/
noncomputable def u2_update (p1 p2 : ℝ) (cur : Triple) : Except PassError Triple :=
  u3_update (Real.pi/2, p1, p2) cur

/-- Embedding of `WireStatus.u3_to_u3` (lines 309-320): the corrective u3
triple carrying the wire state `p1` to the wire state `p2`, computed by
composing `p2` with the inverse of `p1` (`theta2 = -p1.theta`,
`phi2 = -p1.lambda`, `lambda2 = -p1.phi`). -/
noncomputable def u3_to_u3 (p1 p2 : Triple) : Except PassError Triple := do
  let e ← yzy_to_zyz (p2.2.2 + -p1.2.2) p2.1 (-p1.1)
  round_to_half_pi e.1 (p2.2.1 + e.2.1) (-p1.2.1 + e.2.2)

/-- Real-valued model of `np.isclose(a, b)` with numpy's default tolerances
`rtol = 1e-5`, `atol = 1e-8`. -/
noncomputable def isclose (a b : ℝ) : Bool := |a - b| ≤ 1/10^8 + 1/10^5 * |b|

/-- Embedding of `WireStatus.check_Zero_state` (lines 271-277): false on an
unknown (`None`) wire, otherwise `np.isclose(theta, 0)`. -/
noncomputable def check_Zero_state (s : Option Triple) : Bool :=
  match s with
  | none => false
  | some t => isclose t.1 0

/-- Embedding of `WireStatus.check_One_state` (lines 279-285). -/
noncomputable def check_One_state (s : Option Triple) : Bool :=
  match s with
  | none => false
  | some t => isclose t.1 Real.pi

/-- Embedding of `WireStatus.check_Plus_state` (lines 287-293). -/
noncomputable def check_Plus_state (s : Option Triple) : Bool :=
  match s with
  | none => false
  | some t => isclose t.1 (Real.pi/2) && isclose t.2.1 0

/-- Embedding of `WireStatus.check_Minus_state` (lines 295-301). -/
noncomputable def check_Minus_state (s : Option Triple) : Bool :=
  match s with
  | none => false
  | some t => isclose t.1 (Real.pi/2) && isclose t.2.1 Real.pi

/-- Embedding of `WireStatus.swap_can_be_removed` (lines 238-239): Python
`==` on the two stored entries (`None == None` is `True`). -/
noncomputable def swap_can_be_removed (s1 s2 : Option Triple) : Prop := s1 = s2

/-- Result of `WireStatus.swap_can_be_replaced` (lines 241-250). -/
inductive WhichSwap where
  | both
  | left
  | right
  | neither
deriving DecidableEq

/-- Embedding of `WireStatus.swap_can_be_replaced` (lines 241-250). -/
def swap_can_be_replaced (s1 s2 : Option Triple) : WhichSwap :=
  match s1, s2 with
  | some _, some _ => .both
  | some _, none => .left
  | none, some _ => .right
  | none, none => .neither

/-- Gate of a replacement subgraph, acting on local wire slots (slot `0` maps
onto the swap node's first operand wire, slot `1` onto the second). -/
inductive SubGate where
  | u3 (theta phi lam : ℝ) (q : ℕ)
  | xg (q : ℕ)
  | zg (q : ℕ)
  | aswap (a b : ℕ)

/-- Test whether a subgraph gate is the two-qubit `ASwapGate` primitive. -/
def isAswap : SubGate → Bool
  | .aswap _ _ => true
  | _ => false

/-- Orientation tag `'left'`/`'right'` of the asymmetric-swap rewrite. -/
inductive LR where
  | left
  | right
deriving DecidableEq

/-- Embedding of `PureStateOptimization.swap_to_u_dag` (lines 196-209): two
corrective u3 gates, one per wire, no two-qubit gate. -/
noncomputable def swap_to_u_dag (t1 t2 : Triple) : Except PassError (List SubGate) := do
  let c1 ← u3_to_u3 t1 t2
  let c2 ← u3_to_u3 t2 t1
  .ok [.u3 c1.1 c1.2.1 c1.2.2 0, .u3 c2.1 c2.2.1 c2.2.2 1]

/-- Embedding of `PureStateOptimization.ASwapGate` (lines 136-159) together
with the subgraph builders `swap_dag`, `swap_x_dag`, `swap_z_dag`,
`swap_u_dag` (lines 81-133), specialised to the `'left'`/`'right'` operand
`t`, the known wire's stored triple (the un-taken branches of those builders
raise for an unexpected direction and are unreachable here). -/
noncomputable def aswapReplacement (side : LR) (t : Triple) : List SubGate :=
  match side with
  | .left =>
    if check_Zero_state (some t) then [.aswap 0 1]
    else if check_One_state (some t) then [.xg 1, .aswap 0 1]
    else if check_Plus_state (some t) then [.aswap 1 0]
    else if check_Minus_state (some t) then [.zg 1, .aswap 1 0]
    else [.u3 (-t.1) (-t.2.2) (-t.2.1) 0, .aswap 0 1, .u3 t.1 t.2.1 t.2.2 1]
  | .right =>
    if check_Zero_state (some t) then [.aswap 1 0]
    else if check_One_state (some t) then [.xg 0, .aswap 1 0]
    else if check_Plus_state (some t) then [.aswap 0 1]
    else if check_Minus_state (some t) then [.zg 0, .aswap 0 1]
    else [.u3 (-t.1) (-t.2.2) (-t.2.1) 1, .aswap 1 0, .u3 t.1 t.2.1 t.2.2 0]

/-- Graph action decided for one SWAP node by `PureStateOptimization.run`
(lines 53-69): delete the node, substitute a subgraph for it, or leave it. -/
inductive SwapAction where
  | removed
  | replaced (g : List SubGate)
  | unchanged

/-- Decision taken by the SWAP branch of `PureStateOptimization.run`
(lines 53-69) as a function of the two operand wires' stored states:
`swap_can_be_removed` (Python `==`, where `None == None` holds) decides
removal first, then `swap_can_be_replaced` dispatches to `swap_to_u_dag`
(`'both'`) or `ASwapGate` (`'left'`/`'right'`); otherwise the node stays. -/
noncomputable def swapDecision (s1 s2 : Option Triple) : Except PassError SwapAction :=
  if s1 = s2 then .ok .removed
  else
    match s1, s2 with
    | some t1, some t2 => do
        let g ← swap_to_u_dag t1 t2
        .ok (.replaced g)
    | some t1, none => .ok (.replaced (aswapReplacement .left t1))
    | none, some t2 => .ok (.replaced (aswapReplacement .right t2))
    | none, none => .ok .unchanged

/-- Wire-state store of the pass: `WireStatus._dict`, wires as naturals,
`None` as `Option.none`. -/
abbrev Store := ℕ → Option Triple

/-- Embedding of `WireStatus.swap_states` (lines 252-253): exchange the two
wires' stored entries. -/
def exchange (store : Store) (q1 q2 : ℕ) : Store :=
  fun w => if w = q1 then store q2 else if w = q2 then store q1 else store w

/-- Full handling of one SWAP node by `PureStateOptimization.run`
(lines 53-69): the decision of `swapDecision`, together with the store
update — `swap_states` runs in the replaced and unchanged branches, while
the removed branch returns with `continue` before any exchange. -/
noncomputable def runSwapNode (store : Store) (q1 q2 : ℕ) :
    Except PassError (SwapAction × Store) := do
  let a ← swapDecision (store q1) (store q2)
  .ok (a, match a with
          | .removed => store
          | _ => exchange store q1 q2)

/-- Gate kind of a graph node, the tagged union behind the `isinstance`
dispatch of `PureStateOptimization.run`: controlled gates, SWAP, the
recognized single-qubit gates of the `single_gates` tuple with their numeric
parameters, and `other` for every remaining operation. -/
inductive OpKind where
  | controlled
  | swapG
  | xk
  | yk
  | zk
  | hk
  | sk
  | sdgk
  | tk
  | tdgk
  | rxk (p : ℝ)
  | ryk (p : ℝ)
  | rzk (p : ℝ)
  | u1k (p : ℝ)
  | u2k (p1 p2 : ℝ)
  | u3k (p1 p2 p3 : ℝ)
  | other

/-- Canonical triple update of one recognized single-qubit gate, the
`isinstance` table of `single_gates_wire_status` (lines 165-192). -/
noncomputable def singleUpdate (k : OpKind) (cur : Triple) : Except PassError Triple :=
  match k with
  | .xk => u3_update (Real.pi, 0, Real.pi) cur
  | .yk => u3_update (Real.pi, Real.pi/2, Real.pi/2) cur
  | .zk => u1_update Real.pi cur
  | .hk => u2_update 0 Real.pi cur
  | .sk => u1_update (Real.pi/2) cur
  | .sdgk => u1_update (3*Real.pi/2) cur
  | .tk => u1_update (Real.pi/4) cur
  | .tdgk => u1_update (7*Real.pi/4) cur
  | .rxk p => u3_update (p, 3*Real.pi/2, Real.pi/2) cur
  | .ryk p => u3_update (p, 0, 0) cur
  | .rzk p => u1_update p cur
  | .u1k p => u1_update p cur
  | .u2k p1 p2 => u2_update p1 p2 cur
  | .u3k p1 p2 p3 => u3_update (p1, p2, p3) cur
  | _ => .error .unsupportedGate

/-- Embedding of `PureStateOptimization.single_gates_wire_status`
(lines 161-194): return unchanged when the wire's state is `None`, otherwise
dispatch on the gate kind, raising `TranspilerError('Unexpected single qubit
gate')` in the final `else` for a gate outside the recognized table. -/
noncomputable def single_gates_wire_status (store : Store) (q : ℕ) (k : OpKind) :
    Except PassError Store :=
  match store q with
  | none => .ok store
  | some cur => do
      let t ← singleUpdate k cur
      .ok (Function.update store q (some t))

/-- Membership of a gate kind in the `single_gates` tuple (line 34). -/
def isSingleGate : OpKind → Bool
  | .controlled => false
  | .swapG => false
  | .other => false
  | _ => true

/-- Graph node: gate kind plus operand wires in order. -/
structure Node where
  kind : OpKind
  qargs : List ℕ

/-- Marking of every operand wire as `None` (`Unknown`), as done for
controlled and unrecognized gates in `PureStateOptimization.run`. -/
def markUnknown (store : Store) (qs : List ℕ) : Store :=
  qs.foldl (fun s q => Function.update s q none) store

/-- Embedding of the per-node dispatch of `PureStateOptimization.run`
(lines 49-77): controlled gates invalidate every operand wire, SWAP nodes go
through `runSwapNode` (reporting the decided graph action), recognized
single-qubit gates go through `single_gates_wire_status`, and any other
operation invalidates every operand wire; only a SWAP node yields a graph
action. -/
noncomputable def runNode (store : Store) (n : Node) :
    Except PassError (Store × Option SwapAction) :=
  match n.kind with
  | .controlled => .ok (markUnknown store n.qargs, none)
  | .swapG =>
      match n.qargs with
      | q1 :: q2 :: _ => do
          let r ← runSwapNode store q1 q2
          .ok (r.2, some r.1)
      | _ => .ok (store, none)
  | .other => .ok (markUnknown store n.qargs, none)
  | k =>
      match n.qargs with
      | q :: _ => do
          let st ← single_gates_wire_status store q k
          .ok (st, none)
      | _ => .ok (store, none)

/-- Integer casts are their own truncation. -/
lemma rtrunc_intCast (n : ℤ) : rtrunc (n : ℝ) = n := by
  unfold rtrunc
  split <;> simp

/-- Integer casts round to themselves. -/
lemma pyRound_intCast (n : ℤ) : pyRound (n : ℝ) = n := by
  unfold pyRound
  rw [if_pos] <;> simp [Int.fract_intCast]

/-- The fmod remainder of an exact integer multiple is zero. -/
lemma fmod_int_mul (n : ℤ) (y : ℝ) (hy : y ≠ 0) : fmod ((n : ℝ) * y) y = 0 := by
  unfold fmod
  rw [mul_div_assoc, div_self hy, mul_one, rtrunc_intCast]
  ring

/-- Exact integer multiples of `pi/2` snap to themselves. -/
lemma snap_int_mul (n : ℤ) : snapHalfPi ((n : ℝ) * (Real.pi/2)) = (n : ℝ) * (Real.pi/2) := by
  unfold snapHalfPi
  rw [fmod_int_mul n (Real.pi/2) (by positivity)]
  rw [if_pos (by norm_num)]
  rw [mul_div_assoc, div_self (by positivity : Real.pi/2 ≠ 0), mul_one, pyRound_intCast]

lemma snap_zero : snapHalfPi 0 = 0 := by
  have h := snap_int_mul 0
  norm_num at h
  exact h

lemma snap_pi : snapHalfPi Real.pi = Real.pi := by
  have h := snap_int_mul 2
  push_cast at h
  rw [show Real.pi = 2 * (Real.pi/2) by ring]
  exact h

lemma snap_pi_div_two : snapHalfPi (Real.pi/2) = Real.pi/2 := by
  have h := snap_int_mul 1
  push_cast at h
  rw [show Real.pi/2 = 1 * (Real.pi/2) by ring]
  exact h

lemma snap_neg_pi : snapHalfPi (-Real.pi) = -Real.pi := by
  have h := snap_int_mul (-2)
  push_cast at h
  rw [show -Real.pi = -2 * (Real.pi/2) by ring]
  exact h

lemma snap_two_pi : snapHalfPi (2*Real.pi) = 2*Real.pi := by
  have h := snap_int_mul 4
  push_cast at h
  rw [show 2*Real.pi = 4 * (Real.pi/2) by ring]
  exact h

/-- Evaluation of `pymod` once the floor of the quotient is known. -/
lemma pymod_eval (x y : ℝ) (n : ℤ) (h : ⌊x / y⌋ = n) : pymod x y = x - y * n := by
  unfold pymod
  rw [h]

lemma pymod_zero_left (y : ℝ) : pymod 0 y = 0 := by
  unfold pymod
  simp

lemma pymod_pi : pymod Real.pi (2*Real.pi) = Real.pi := by
  have hq : Real.pi / (2*Real.pi) = 1/2 := by
    field_simp
    ring
  have h : ⌊Real.pi / (2*Real.pi)⌋ = 0 := by
    rw [hq]
    norm_num
  rw [pymod_eval _ _ 0 h]
  push_cast
  ring

lemma pymod_neg_pi : pymod (-Real.pi) (2*Real.pi) = Real.pi := by
  have hq : -Real.pi / (2*Real.pi) = -(1/2) := by
    field_simp
    ring
  have h : ⌊-Real.pi / (2*Real.pi)⌋ = -1 := by
    rw [hq]
    norm_num [Int.floor_eq_iff]
  rw [pymod_eval _ _ (-1) h]
  push_cast
  ring

lemma pymod_two_pi : pymod (2*Real.pi) (2*Real.pi) = 0 := by
  have h : ⌊2*Real.pi / (2*Real.pi)⌋ = 1 := by
    rw [div_self (by positivity : 2*Real.pi ≠ 0)]
    norm_num
  rw [pymod_eval _ _ 1 h]
  push_cast
  ring

lemma pymod_pi_div_two : pymod (Real.pi/2) (2*Real.pi) = Real.pi/2 := by
  have hq : (Real.pi/2) / (2*Real.pi) = 1/4 := by
    field_simp
    ring
  have h : ⌊(Real.pi/2) / (2*Real.pi)⌋ = 0 := by
    rw [hq]
    norm_num
  rw [pymod_eval _ _ 0 h]
  push_cast
  ring

/-- Representation of `pymod` through the fractional part. -/
lemma pymod_eq_fract (x y : ℝ) (hy : y ≠ 0) : pymod x y = y * Int.fract (x / y) := by
  unfold pymod Int.fract
  field_simp

lemma pymod_nonneg (x y : ℝ) (hy : 0 < y) : 0 ≤ pymod x y := by
  rw [pymod_eq_fract x y (ne_of_gt hy)]
  exact mul_nonneg (le_of_lt hy) (Int.fract_nonneg _)

lemma pymod_lt (x y : ℝ) (hy : 0 < y) : pymod x y < y := by
  rw [pymod_eq_fract x y (ne_of_gt hy)]
  calc y * Int.fract (x / y) < y * 1 := by
        exact mul_lt_mul_of_pos_left (Int.fract_lt_one _) hy
    _ = y := mul_one y

/-- Chopping keeps any value at least `1e-15` in magnitude. -/
lemma chop_of_ge (a : ℝ) (h : 1/10^15 ≤ |a|) : chop a = a := by
  unfold chop
  rw [if_neg (not_lt.2 h)]

lemma chop_zero : chop 0 = 0 := by
  unfold chop
  norm_num

lemma chop_pi : chop Real.pi = Real.pi := by
  refine chop_of_ge _ ?_
  rw [abs_of_pos Real.pi_pos]
  nlinarith [Real.pi_gt_three]

lemma chop_pi_div_two : chop (Real.pi/2) = Real.pi/2 := by
  refine chop_of_ge _ ?_
  rw [abs_of_pos (by positivity)]
  nlinarith [Real.pi_gt_three]

lemma chop_neg_pi : chop (-Real.pi) = -Real.pi := by
  refine chop_of_ge _ ?_
  rw [abs_neg, abs_of_pos Real.pi_pos]
  nlinarith [Real.pi_gt_three]

lemma atan2_zero_one : atan2 0 1 = 0 := by
  unfold atan2
  have h : (⟨1, 0⟩ : ℂ) = 1 := by
    apply Complex.ext <;> simp
  rw [h, Complex.arg_one]

lemma atan2_zero_neg_one : atan2 0 (-1) = Real.pi := by
  unfold atan2
  have h : (⟨-1, 0⟩ : ℂ) = -1 := by
    apply Complex.ext <;> simp
  rw [h, Complex.arg_neg_one]

lemma qy_zero : qy 0 = ⟨1, 0, 0, 0⟩ := by
  unfold qy
  norm_num

lemma qy_pi : qy Real.pi = ⟨0, 0, 1, 0⟩ := by
  unfold qy
  rw [Real.cos_pi_div_two, Real.sin_pi_div_two]

lemma qy_pi_div_two : qy (Real.pi/2) = ⟨Real.sqrt 2/2, 0, Real.sqrt 2/2, 0⟩ := by
  unfold qy
  rw [show Real.pi/2/2 = Real.pi/4 by ring, Real.cos_pi_div_four, Real.sin_pi_div_four]

lemma qy_neg_pi_div_two : qy (-(Real.pi/2)) = ⟨Real.sqrt 2/2, 0, -(Real.sqrt 2/2), 0⟩ := by
  unfold qy
  rw [show -(Real.pi/2)/2 = -(Real.pi/4) by ring, Real.cos_neg, Real.sin_neg,
    Real.cos_pi_div_four, Real.sin_pi_div_four]

lemma qz_zero : qz 0 = ⟨1, 0, 0, 0⟩ := by
  unfold qz
  norm_num

lemma qz_pi : qz Real.pi = ⟨0, 0, 0, 1⟩ := by
  unfold qz
  rw [Real.cos_pi_div_two, Real.sin_pi_div_two]

lemma qz_neg_pi : qz (-Real.pi) = ⟨0, 0, 0, -1⟩ := by
  unfold qz
  rw [show -Real.pi/2 = -(Real.pi/2) by ring, Real.cos_neg, Real.sin_neg,
    Real.cos_pi_div_two, Real.sin_pi_div_two]

lemma qz_two_pi : qz (2*Real.pi) = ⟨-1, 0, 0, 0⟩ := by
  unfold qz
  rw [show 2*Real.pi/2 = Real.pi by ring, Real.cos_pi, Real.sin_pi]

lemma quatExt (a b : Quat) (hw : a.w = b.w) (hx : a.x = b.x) (hy : a.y = b.y)
    (hz : a.z = b.z) : a = b := by
  cases a
  cases b
  simp_all

lemma qmul_id_right (a : Quat) : qmul a ⟨1, 0, 0, 0⟩ = a := by
  unfold qmul
  apply quatExt <;> dsimp only <;> ring

lemma qmul_id_left (a : Quat) : qmul ⟨1, 0, 0, 0⟩ a = a := by
  unfold qmul
  apply quatExt <;> dsimp only <;> ring

/-- Product of the squares of one half of the square root of two. -/
lemma sqrt2_half_mul : (Real.sqrt 2/2) * (Real.sqrt 2/2) = 1/2 := by
  rw [div_mul_div_comm, Real.mul_self_sqrt (by norm_num : (0:ℝ) ≤ 2)]
  norm_num

lemma sqrt2_half_sq : (Real.sqrt 2/2)^2 = 1/2 := by
  rw [sq, sqrt2_half_mul]

/-- Generic branch of the Euler extraction, `-1 < m22 < 1`. -/
lemma toZYZ_generic (q : Quat) (h1 : 1 - 2*(q.x^2 + q.y^2) < 1)
    (h2 : -1 < 1 - 2*(q.x^2 + q.y^2)) :
    toZYZ q = (atan2 (2*(q.y*q.z - q.x*q.w)) (2*(q.x*q.z + q.y*q.w)),
               Real.arccos (1 - 2*(q.x^2 + q.y^2)),
               atan2 (2*(q.y*q.z + q.x*q.w)) (-(2*(q.x*q.z - q.y*q.w)))) := by
  unfold toZYZ
  rw [if_pos h1, if_pos h2]

/-- Degenerate branch of the Euler extraction at `m22 = 1`. -/
lemma toZYZ_top (q : Quat) (h : ¬ (1 - 2*(q.x^2 + q.y^2) < 1)) :
    toZYZ q = (atan2 (2*(q.x*q.y + q.z*q.w)) (1 - 2*(q.x^2 + q.z^2)), 0, 0) := by
  unfold toZYZ
  rw [if_neg h]

/-- Degenerate branch of the Euler extraction at `m22 = -1`. -/
lemma toZYZ_bottom (q : Quat) (h1 : 1 - 2*(q.x^2 + q.y^2) < 1)
    (h2 : ¬ (-1 < 1 - 2*(q.x^2 + q.y^2))) :
    toZYZ q = (-(atan2 (2*(q.x*q.y + q.z*q.w)) (1 - 2*(q.x^2 + q.z^2))), Real.pi, 0) := by
  unfold toZYZ
  rw [if_pos h1, if_neg h2]

lemma qmul_A : qmul ⟨Real.sqrt 2/2, 0, Real.sqrt 2/2, 0⟩ ⟨0, 0, 0, 1⟩ =
    (⟨0, Real.sqrt 2/2, 0, Real.sqrt 2/2⟩ : Quat) := by
  unfold qmul
  apply quatExt <;> dsimp only <;> ring

lemma fromYZY_1 : fromYZY (Real.pi/2) Real.pi 0 = ⟨0, Real.sqrt 2/2, 0, Real.sqrt 2/2⟩ := by
  unfold fromYZY
  rw [qy_pi_div_two, qz_pi, qy_zero, qmul_id_right, qmul_A]

lemma fromYZY_2 : fromYZY (Real.pi/2) Real.pi (Real.pi/2) = ⟨0, 0, 0, 1⟩ := by
  unfold fromYZY
  rw [qy_pi_div_two, qz_pi, qmul_A]
  unfold qmul
  apply quatExt <;> dsimp only <;> ring_nf <;> norm_num [Real.sq_sqrt]

lemma fromYZY_3 : fromYZY Real.pi Real.pi 0 = ⟨0, 1, 0, 0⟩ := by
  unfold fromYZY
  rw [qy_pi, qz_pi, qy_zero, qmul_id_right]
  unfold qmul
  apply quatExt <;> dsimp only <;> ring

lemma fromYZY_4 : fromYZY 0 (-Real.pi) 0 = ⟨0, 0, 0, -1⟩ := by
  unfold fromYZY
  rw [qy_zero, qz_neg_pi, qmul_id_left, qmul_id_right]

lemma fromYZY_5 : fromYZY 0 Real.pi 0 = ⟨0, 0, 0, 1⟩ := by
  unfold fromYZY
  rw [qy_zero, qz_pi, qmul_id_left, qmul_id_right]

lemma fromYZY_6 : fromYZY 0 (2*Real.pi) 0 = ⟨-1, 0, 0, 0⟩ := by
  unfold fromYZY
  rw [qy_zero, qz_two_pi, qmul_id_left, qmul_id_right]

lemma fromYZY_7 : fromYZY 0 (-Real.pi) (-(Real.pi/2)) =
    ⟨0, -(Real.sqrt 2/2), 0, -(Real.sqrt 2/2)⟩ := by
  unfold fromYZY
  rw [qy_zero, qz_neg_pi, qmul_id_left, qy_neg_pi_div_two]
  unfold qmul
  apply quatExt <;> dsimp only <;> ring

lemma fromZYZ_1 : fromZYZ 0 (Real.pi/2) Real.pi = ⟨0, Real.sqrt 2/2, 0, Real.sqrt 2/2⟩ := by
  unfold fromZYZ
  rw [qz_zero, qy_pi_div_two, qz_pi, qmul_id_left, qmul_A]

lemma fromZYZ_2 : fromZYZ Real.pi 0 0 = ⟨0, 0, 0, 1⟩ := by
  unfold fromZYZ
  rw [qz_pi, qy_zero, qz_zero, qmul_id_right, qmul_id_right]

lemma fromZYZ_3 : fromZYZ (-Real.pi) Real.pi 0 = ⟨0, 1, 0, 0⟩ := by
  unfold fromZYZ
  rw [qz_neg_pi, qy_pi, qz_zero, qmul_id_right]
  unfold qmul
  apply quatExt <;> dsimp only <;> ring

lemma fromZYZ_4 : fromZYZ 0 0 0 = ⟨1, 0, 0, 0⟩ := by
  unfold fromZYZ
  rw [qz_zero, qy_zero, qmul_id_left, qmul_id_right]

lemma toZYZ_A : toZYZ ⟨0, Real.sqrt 2/2, 0, Real.sqrt 2/2⟩ = (0, Real.pi/2, Real.pi) := by
  rw [toZYZ_generic _ (by dsimp only; rw [sqrt2_half_sq]; norm_num)
    (by dsimp only; rw [sqrt2_half_sq]; norm_num)]
  dsimp only
  simp only [Prod.mk.injEq]
  refine ⟨?_, ?_, ?_⟩
  · rw [show (2*(0*(Real.sqrt 2/2) - (Real.sqrt 2/2)*0) : ℝ) = 0 by ring,
      show (2*((Real.sqrt 2/2)*(Real.sqrt 2/2) + 0*0) : ℝ) = 1 by rw [sqrt2_half_mul]; norm_num]
    exact atan2_zero_one
  · rw [show (1 - 2*((Real.sqrt 2/2)^2 + (0:ℝ)^2) : ℝ) = 0 by rw [sqrt2_half_sq]; norm_num]
    exact Real.arccos_zero
  · rw [show (2*(0*(Real.sqrt 2/2) + (Real.sqrt 2/2)*0) : ℝ) = 0 by ring,
      show (-(2*((Real.sqrt 2/2)*(Real.sqrt 2/2) - 0*0)) : ℝ) = -1 by rw [sqrt2_half_mul]; norm_num]
    exact atan2_zero_neg_one

lemma toZYZ_B : toZYZ ⟨0, 0, 0, 1⟩ = (Real.pi, 0, 0) := by
  rw [toZYZ_top _ (by dsimp only; norm_num)]
  dsimp only
  simp only [Prod.mk.injEq]
  refine ⟨?_, by norm_num⟩
  rw [show (2*((0:ℝ)*0 + 1*0) : ℝ) = 0 by ring,
    show (1 - 2*((0:ℝ)^2 + 1^2) : ℝ) = -1 by norm_num]
  exact atan2_zero_neg_one

lemma toZYZ_C : toZYZ ⟨0, 1, 0, 0⟩ = (-Real.pi, Real.pi, 0) := by
  rw [toZYZ_bottom _ (by dsimp only; norm_num) (by dsimp only; norm_num)]
  dsimp only
  simp only [Prod.mk.injEq]
  refine ⟨?_, by norm_num⟩
  rw [show (2*((1:ℝ)*0 + 0*0) : ℝ) = 0 by ring,
    show (1 - 2*((1:ℝ)^2 + 0^2) : ℝ) = -1 by norm_num]
  rw [atan2_zero_neg_one]

lemma toZYZ_D : toZYZ ⟨0, 0, 0, -1⟩ = (Real.pi, 0, 0) := by
  rw [toZYZ_top _ (by dsimp only; norm_num)]
  dsimp only
  simp only [Prod.mk.injEq]
  refine ⟨?_, by norm_num⟩
  rw [show (2*((0:ℝ)*0 + (-1)*0) : ℝ) = 0 by ring,
    show (1 - 2*((0:ℝ)^2 + (-1)^2) : ℝ) = -1 by norm_num]
  exact atan2_zero_neg_one

lemma toZYZ_E : toZYZ ⟨-1, 0, 0, 0⟩ = (0, 0, 0) := by
  rw [toZYZ_top _ (by dsimp only; norm_num)]
  dsimp only
  simp only [Prod.mk.injEq]
  refine ⟨?_, by norm_num⟩
  rw [show (2*((0:ℝ)*0 + 0*(-1)) : ℝ) = 0 by ring,
    show (1 - 2*((0:ℝ)^2 + 0^2) : ℝ) = 1 by norm_num]
  exact atan2_zero_one

lemma toZYZ_F : toZYZ ⟨0, -(Real.sqrt 2/2), 0, -(Real.sqrt 2/2)⟩ = (0, Real.pi/2, Real.pi) := by
  rw [toZYZ_generic _ (by dsimp only; rw [neg_sq, sqrt2_half_sq]; norm_num)
    (by dsimp only; rw [neg_sq, sqrt2_half_sq]; norm_num)]
  dsimp only
  simp only [Prod.mk.injEq]
  refine ⟨?_, ?_, ?_⟩
  · rw [show (2*(0*(-(Real.sqrt 2/2)) - (-(Real.sqrt 2/2))*0) : ℝ) = 0 by ring,
      show (2*((-(Real.sqrt 2/2))*(-(Real.sqrt 2/2)) + 0*0) : ℝ) = 1 by
        rw [neg_mul_neg, sqrt2_half_mul]; norm_num]
    exact atan2_zero_one
  · rw [show (1 - 2*((-(Real.sqrt 2/2))^2 + (0:ℝ)^2) : ℝ) = 0 by
      rw [neg_sq, sqrt2_half_sq]; norm_num]
    exact Real.arccos_zero
  · rw [show (2*(0*(-(Real.sqrt 2/2)) + (-(Real.sqrt 2/2))*0) : ℝ) = 0 by ring,
      show (-(2*((-(Real.sqrt 2/2))*(-(Real.sqrt 2/2)) - 0*0)) : ℝ) = -1 by
        rw [neg_mul_neg, sqrt2_half_mul]; norm_num]
    exact atan2_zero_neg_one

lemma toZYZ_I : toZYZ ⟨1, 0, 0, 0⟩ = (0, 0, 0) := by
  rw [toZYZ_top _ (by dsimp only; norm_num)]
  dsimp only
  simp only [Prod.mk.injEq]
  refine ⟨?_, by norm_num⟩
  rw [show (2*((0:ℝ)*0 + 0*1) : ℝ) = 0 by ring,
    show (1 - 2*((0:ℝ)^2 + 0^2) : ℝ) = 1 by norm_num]
  exact atan2_zero_one

lemma qdot_AA : qdot ⟨0, Real.sqrt 2/2, 0, Real.sqrt 2/2⟩ ⟨0, Real.sqrt 2/2, 0, Real.sqrt 2/2⟩ = 1 := by
  unfold qdot
  dsimp only
  rw [sqrt2_half_mul]
  norm_num

lemma qdot_BB : qdot (⟨0, 0, 0, 1⟩ : Quat) ⟨0, 0, 0, 1⟩ = 1 := by
  unfold qdot
  norm_num

lemma qdot_CC : qdot (⟨0, 1, 0, 0⟩ : Quat) ⟨0, 1, 0, 0⟩ = 1 := by
  unfold qdot
  norm_num

lemma qdot_BD : qdot (⟨0, 0, 0, 1⟩ : Quat) ⟨0, 0, 0, -1⟩ = -1 := by
  unfold qdot
  norm_num

lemma qdot_IE : qdot (⟨1, 0, 0, 0⟩ : Quat) ⟨-1, 0, 0, 0⟩ = -1 := by
  unfold qdot
  norm_num

lemma qdot_AF : qdot ⟨0, Real.sqrt 2/2, 0, Real.sqrt 2/2⟩
    ⟨0, -(Real.sqrt 2/2), 0, -(Real.sqrt 2/2)⟩ = -1 := by
  unfold qdot
  dsimp only
  rw [mul_neg, sqrt2_half_mul]
  norm_num

lemma yzy_1 : yzy_to_zyz Real.pi (Real.pi/2) 0 = .ok (Real.pi/2, 0, Real.pi) := by
  simp only [yzy_to_zyz]
  rw [fromYZY_1, toZYZ_A]
  dsimp only
  rw [fromZYZ_1, qdot_AA, if_neg (by norm_num)]
  rw [chop_zero, chop_pi_div_two, chop_pi]

lemma yzy_2 : yzy_to_zyz Real.pi (Real.pi/2) (Real.pi/2) = .ok (0, Real.pi, 0) := by
  simp only [yzy_to_zyz]
  rw [fromYZY_2, toZYZ_B]
  dsimp only
  rw [fromZYZ_2, qdot_BB, if_neg (by norm_num)]
  rw [chop_zero, chop_pi]

lemma yzy_3 : yzy_to_zyz Real.pi Real.pi 0 = .ok (Real.pi, -Real.pi, 0) := by
  simp only [yzy_to_zyz]
  rw [fromYZY_3, toZYZ_C]
  dsimp only
  rw [fromZYZ_3, qdot_CC, if_neg (by norm_num)]
  rw [chop_zero, chop_pi, chop_neg_pi]

lemma yzy_4 : yzy_to_zyz (-Real.pi) 0 0 = .ok (0, Real.pi, 0) := by
  simp only [yzy_to_zyz]
  rw [fromYZY_4, toZYZ_D]
  dsimp only
  rw [fromZYZ_2, qdot_BD, if_neg (by norm_num)]
  rw [chop_zero, chop_pi]

lemma yzy_5 : yzy_to_zyz Real.pi 0 0 = .ok (0, Real.pi, 0) := by
  simp only [yzy_to_zyz]
  rw [fromYZY_5, toZYZ_B]
  dsimp only
  rw [fromZYZ_2, qdot_BB, if_neg (by norm_num)]
  rw [chop_zero, chop_pi]

lemma yzy_6 : yzy_to_zyz (2*Real.pi) 0 0 = .ok (0, 0, 0) := by
  simp only [yzy_to_zyz]
  rw [fromYZY_6, toZYZ_E]
  dsimp only
  rw [fromZYZ_4, qdot_IE, if_neg (by norm_num)]
  rw [chop_zero]

lemma yzy_7 : yzy_to_zyz (-Real.pi) 0 (-(Real.pi/2)) = .ok (Real.pi/2, 0, Real.pi) := by
  simp only [yzy_to_zyz]
  rw [fromYZY_7, toZYZ_F]
  dsimp only
  rw [fromZYZ_1, qdot_AF, if_neg (by norm_num)]
  rw [chop_zero, chop_pi_div_two, chop_pi]

/-- Success case of the normalization: no error when theta stays at or below pi. -/
lemma round_ok (t p l : ℝ) (h : t ≤ Real.pi) :
    round_to_half_pi t p l =
      .ok (snapHalfPi t, pymod (snapHalfPi p) (2*Real.pi),
           pymod (snapHalfPi l) (2*Real.pi)) := by
  unfold round_to_half_pi
  rw [if_neg (not_lt.2 h)]

/-- Composing an H gate onto the initial zero state yields the plus-state
triple `(pi/2, 0, pi)`. -/
lemma u3H_zero : u3_update (Real.pi/2, 0, Real.pi) (0, 0, 0) = .ok (Real.pi/2, 0, Real.pi) := by
  unfold u3_update
  dsimp only
  rw [add_zero, yzy_1]
  show round_to_half_pi (Real.pi/2) (0 + 0) (0 + Real.pi) = .ok (Real.pi/2, 0, Real.pi)
  rw [zero_add, zero_add, round_ok _ _ _ (by linarith [Real.pi_pos])]
  rw [snap_pi_div_two, snap_zero, snap_pi, pymod_zero_left, pymod_pi]

/-- Composing an H gate onto the plus-state triple yields `(0, pi, pi)`,
a triple of the zero state with a different phase split. -/
lemma u3H_plus : u3_update (Real.pi/2, 0, Real.pi) (Real.pi/2, 0, Real.pi) =
    .ok (0, Real.pi, Real.pi) := by
  unfold u3_update
  dsimp only
  rw [add_zero, yzy_2]
  show round_to_half_pi 0 (0 + Real.pi) (Real.pi + 0) = .ok (0, Real.pi, Real.pi)
  rw [zero_add, add_zero, round_ok _ _ _ (le_of_lt Real.pi_pos)]
  rw [snap_zero, snap_pi, pymod_pi]

/-- Composing an X gate onto the initial zero state yields `(pi, pi, 0)`. -/
lemma u3X_zero : u3_update (Real.pi, 0, Real.pi) (0, 0, 0) = .ok (Real.pi, Real.pi, 0) := by
  unfold u3_update
  dsimp only
  rw [add_zero, yzy_3]
  show round_to_half_pi Real.pi (0 + -Real.pi) (0 + 0) = .ok (Real.pi, Real.pi, 0)
  rw [zero_add, zero_add, round_ok _ _ _ (le_refl _)]
  rw [snap_pi, snap_neg_pi, snap_zero, pymod_neg_pi, pymod_zero_left]

/-- Corrective triple from `(0, pi, pi)` to `(0, 0, 0)`. -/
lemma u3u3_A : u3_to_u3 (0, Real.pi, Real.pi) (0, 0, 0) = .ok (0, Real.pi, Real.pi) := by
  unfold u3_to_u3
  dsimp only
  rw [zero_add, neg_zero, yzy_4]
  show round_to_half_pi 0 (0 + Real.pi) (-Real.pi + 0) = .ok (0, Real.pi, Real.pi)
  rw [zero_add, add_zero, round_ok _ _ _ (le_of_lt Real.pi_pos)]
  rw [snap_zero, snap_pi, snap_neg_pi, pymod_pi, pymod_neg_pi]

/-- Corrective triple from `(0, 0, 0)` to `(0, pi, pi)`. -/
lemma u3u3_B : u3_to_u3 (0, 0, 0) (0, Real.pi, Real.pi) = .ok (0, 0, 0) := by
  unfold u3_to_u3
  dsimp only
  rw [neg_zero, add_zero, yzy_5]
  show round_to_half_pi 0 (Real.pi + Real.pi) (0 + 0) = .ok (0, 0, 0)
  rw [show (Real.pi + Real.pi : ℝ) = 2*Real.pi by ring, zero_add,
    round_ok _ _ _ (le_of_lt Real.pi_pos)]
  rw [snap_zero, snap_two_pi, pymod_two_pi, pymod_zero_left]

/-- Composing the corrective triple `(0, pi, pi)` onto the source triple
`(0, pi, pi)` yields `(0, pi, pi)` again. -/
lemma u3u3_rt : u3_update (0, Real.pi, Real.pi) (0, Real.pi, Real.pi) =
    .ok (0, Real.pi, Real.pi) := by
  unfold u3_update
  dsimp only
  rw [show (Real.pi + Real.pi : ℝ) = 2*Real.pi by ring, yzy_6]
  show round_to_half_pi 0 (Real.pi + 0) (Real.pi + 0) = .ok (0, Real.pi, Real.pi)
  rw [add_zero, round_ok _ _ _ (le_of_lt Real.pi_pos)]
  rw [snap_zero, snap_pi, pymod_pi]

/-- Corrective triple from the plus-state triple to the zero triple. -/
lemma u3u3_C : u3_to_u3 (Real.pi/2, 0, Real.pi) (0, 0, 0) = .ok (Real.pi/2, 0, Real.pi) := by
  unfold u3_to_u3
  dsimp only
  rw [zero_add, yzy_7]
  show round_to_half_pi (Real.pi/2) (0 + 0) (-0 + Real.pi) = .ok (Real.pi/2, 0, Real.pi)
  rw [zero_add, show (-0 + Real.pi : ℝ) = Real.pi by norm_num,
    round_ok _ _ _ (by linarith [Real.pi_pos])]
  rw [snap_pi_div_two, snap_zero, snap_pi, pymod_zero_left, pymod_pi]

/-- Corrective triple from the zero triple to the plus-state triple. -/
lemma u3u3_D : u3_to_u3 (0, 0, 0) (Real.pi/2, 0, Real.pi) = .ok (Real.pi/2, 0, Real.pi) := by
  unfold u3_to_u3
  dsimp only
  rw [neg_zero, add_zero, yzy_1]
  show round_to_half_pi (Real.pi/2) (0 + 0) (0 + Real.pi) = .ok (Real.pi/2, 0, Real.pi)
  rw [zero_add, zero_add, round_ok _ _ _ (by linarith [Real.pi_pos])]
  rw [snap_pi_div_two, snap_zero, snap_pi, pymod_zero_left, pymod_pi]

lemma fmod_eval_nonneg (x y : ℝ) (n : ℤ) (h0 : 0 ≤ x / y) (h : ⌊x / y⌋ = n) :
    fmod x y = x - y * n := by
  unfold fmod rtrunc
  rw [if_pos h0, h]

lemma fmod_eval_neg (x y : ℝ) (n : ℤ) (h0 : ¬ 0 ≤ x / y) (h : ⌈x / y⌉ = n) :
    fmod x y = x - y * n := by
  unfold fmod rtrunc
  rw [if_neg h0, h]

/-- The fmod remainder of `-1` by `pi/2` is `-1` itself, since `pi > 2`. -/
lemma fmod_neg_one : fmod (-1) (Real.pi/2) = -1 := by
  have hpos : (0:ℝ) < Real.pi/2 := by positivity
  have hd : (-1 : ℝ)/(Real.pi/2) < 0 := div_neg_of_neg_of_pos (by norm_num) hpos
  have hceil : ⌈(-1 : ℝ)/(Real.pi/2)⌉ = 0 := by
    rw [Int.ceil_eq_iff]
    push_cast
    constructor
    · rw [lt_div_iff hpos]
      nlinarith [Real.pi_gt_three]
    · exact le_of_lt hd
  rw [fmod_eval_neg _ _ 0 (not_le.2 hd) hceil]
  push_cast
  ring

/-- A negative angle of magnitude 1 is left alone by the snapping. -/
lemma snap_neg_one : snapHalfPi (-1) = -1 := by
  unfold snapHalfPi
  rw [fmod_neg_one, if_neg (by norm_num)]

/-- The fmod remainder of `pi/2 + 1e-12` by `pi/2` is exactly `1e-12`. -/
lemma fmod_near_half_pi : fmod (Real.pi/2 + 1/10^12) (Real.pi/2) = 1/10^12 := by
  have hpos : (0:ℝ) < Real.pi/2 := by positivity
  have hx : (0:ℝ) ≤ (Real.pi/2 + 1/10^12)/(Real.pi/2) := by positivity
  have hfl : ⌊(Real.pi/2 + 1/10^12)/(Real.pi/2)⌋ = 1 := by
    rw [Int.floor_eq_iff]
    push_cast
    constructor
    · rw [le_div_iff hpos]
      nlinarith [Real.pi_pos]
    · rw [div_lt_iff hpos]
      nlinarith [Real.pi_gt_three]
  rw [fmod_eval_nonneg _ _ 1 hx hfl]
  push_cast
  ring

/-- An angle `1e-12` above `pi/2` is not snapped: its remainder exceeds the
`1e-15` chop threshold. -/
lemma snap_near_half_pi : snapHalfPi (Real.pi/2 + 1/10^12) = Real.pi/2 + 1/10^12 := by
  unfold snapHalfPi
  rw [fmod_near_half_pi,
    if_neg (by rw [abs_of_pos (by norm_num : (0:ℝ) < 1/10^12)]; norm_num)]

lemma pymod_near_half_pi :
    pymod (Real.pi/2 + 1/10^12) (2*Real.pi) = Real.pi/2 + 1/10^12 := by
  have h : ⌊(Real.pi/2 + 1/10^12)/(2*Real.pi)⌋ = 0 := by
    rw [Int.floor_eq_iff]
    push_cast
    constructor
    · positivity
    · rw [div_lt_iff (by positivity)]
      nlinarith [Real.pi_gt_three]
  rw [pymod_eval _ _ 0 h]
  push_cast
  ring

lemma qdot_II : qdot (⟨1, 0, 0, 0⟩ : Quat) ⟨1, 0, 0, 0⟩ = 1 := by
  unfold qdot
  norm_num

/-- Composition of opposite y rotations with no z rotation in between is the
identity quaternion, and extracts to the all-zero Euler triple. -/
lemma yzy_id (a : ℝ) : yzy_to_zyz 0 a (-a) = .ok (0, 0, 0) := by
  have hq : fromYZY a 0 (-a) = ⟨1, 0, 0, 0⟩ := by
    unfold fromYZY
    rw [qz_zero, qmul_id_right]
    unfold qmul qy
    rw [neg_div, Real.cos_neg, Real.sin_neg]
    apply quatExt <;> dsimp only
    · linear_combination Real.sin_sq_add_cos_sq (a/2)
    · ring
    · ring
    · ring
  simp only [yzy_to_zyz]
  rw [hq, toZYZ_I]
  dsimp only
  rw [fromZYZ_4, qdot_II, if_neg (by norm_num)]
  rw [chop_zero]

/-- Reduction of an `Except` bind whose first component succeeded. -/
lemma ok_bind {α β : Type} (v : α) (f : α → Except PassError β) :
    (Except.ok v >>= f) = f v := rfl

lemma exchange_fst (store : Store) (q1 q2 : ℕ) : exchange store q1 q2 q1 = store q2 := by
  unfold exchange
  rw [if_pos rfl]

lemma exchange_snd (store : Store) (q1 q2 : ℕ) (h : q1 ≠ q2) :
    exchange store q1 q2 q2 = store q1 := by
  unfold exchange
  rw [if_neg (Ne.symm h), if_pos rfl]

lemma exchange_other (store : Store) (q1 q2 w : ℕ) (h1 : w ≠ q1) (h2 : w ≠ q2) :
    exchange store q1 q2 w = store w := by
  unfold exchange
  rw [if_neg h1, if_neg h2]

/-- Reduction of an `Except` bind whose first component failed. -/
lemma error_bind {α β : Type} (e : PassError) (f : α → Except PassError β) :
    ((Except.error e : Except PassError α) >>= f) = .error e := rfl

/-- Equal stored entries always take the removal branch, `None` pairs
included, because `swap_can_be_removed` is Python `==`. -/
lemma swapDecision_eq (s : Option Triple) : swapDecision s s = .ok .removed := by
  unfold swapDecision
  rw [if_pos rfl]

lemma swapDecision_left (t1 : Triple) :
    swapDecision (some t1) none = .ok (.replaced (aswapReplacement .left t1)) := by
  unfold swapDecision
  rw [if_neg (by simp)]

lemma swapDecision_right (t2 : Triple) :
    swapDecision none (some t2) = .ok (.replaced (aswapReplacement .right t2)) := by
  unfold swapDecision
  rw [if_neg (by simp)]

lemma swapDecision_both (t1 t2 c1 c2 : Triple) (hne : t1 ≠ t2)
    (h1 : u3_to_u3 t1 t2 = .ok c1) (h2 : u3_to_u3 t2 t1 = .ok c2) :
    swapDecision (some t1) (some t2) =
      .ok (.replaced [.u3 c1.1 c1.2.1 c1.2.2 0, .u3 c2.1 c2.2.1 c2.2.2 1]) := by
  unfold swapDecision
  rw [if_neg (by simpa using hne)]
  show (do
    let g ← swap_to_u_dag t1 t2
    Except.ok (SwapAction.replaced g)) = _
  unfold swap_to_u_dag
  rw [h1]
  simp only [ok_bind]
  rw [h2]
  simp only [ok_bind]

/-- Store effect of one SWAP node: either the states were equal and the store
is untouched, or they differed and the two entries are exchanged. -/
lemma runSwapNode_store (store : Store) (q1 q2 : ℕ) (a : SwapAction) (st : Store)
    (h : runSwapNode store q1 q2 = .ok (a, st)) :
    (store q1 = store q2 ∧ st = store) ∨
    (store q1 ≠ store q2 ∧ st = exchange store q1 q2) := by
  unfold runSwapNode at h
  by_cases heq : store q1 = store q2
  · left
    rw [show swapDecision (store q1) (store q2) = .ok .removed by
          rw [heq]; exact swapDecision_eq _, ok_bind] at h
    simp only [Except.ok.injEq, Prod.mk.injEq] at h
    exact ⟨heq, h.2.symm⟩
  · right
    refine ⟨heq, ?_⟩
    rcases h1 : store q1 with _ | t1 <;> rcases h2 : store q2 with _ | t2
    · exact absurd (h1.trans h2.symm) heq
    · rw [h1, h2, swapDecision_right, ok_bind] at h
      simp only [Except.ok.injEq, Prod.mk.injEq] at h
      exact h.2.symm
    · rw [h1, h2, swapDecision_left, ok_bind] at h
      simp only [Except.ok.injEq, Prod.mk.injEq] at h
      exact h.2.symm
    · have hne : t1 ≠ t2 := by
        rw [h1, h2] at heq
        simpa using heq
      rcases hg1 : u3_to_u3 t1 t2 with e | c1
      · have hd : swapDecision (some t1) (some t2) = .error e := by
          unfold swapDecision
          rw [if_neg (by simpa using hne)]
          show (do
            let g ← swap_to_u_dag t1 t2
            Except.ok (SwapAction.replaced g)) = _
          unfold swap_to_u_dag
          rw [hg1]
          simp only [error_bind]
        rw [h1, h2, hd] at h
        simp only [error_bind] at h
        exact absurd h (by simp)
      · rcases hg2 : u3_to_u3 t2 t1 with e | c2
        · have hd : swapDecision (some t1) (some t2) = .error e := by
            unfold swapDecision
            rw [if_neg (by simpa using hne)]
            show (do
              let g ← swap_to_u_dag t1 t2
              Except.ok (SwapAction.replaced g)) = _
            unfold swap_to_u_dag
            rw [hg1]
            simp only [ok_bind]
            rw [hg2]
            simp only [error_bind]
          rw [h1, h2, hd] at h
          simp only [error_bind] at h
          exact absurd h (by simp)
        · have hd := swapDecision_both t1 t2 c1 c2 hne hg1 hg2
          rw [h1, h2, hd] at h
          simp only [ok_bind] at h
          simp only [Except.ok.injEq, Prod.mk.injEq] at h
          exact h.2.symm

/-- C7: for every triple t, composing t with its inverse triple — the
corrective rotation from t to t itself computed by `u3_to_u3 t t` — succeeds
and normalizes to a triple whose theta component is exactly 0. -/
theorem c7_inverse_compose_theta_zero (t : Triple) :
    ∃ p l, u3_to_u3 t t = .ok (0, p, l) := by
  refine ⟨pymod (snapHalfPi (t.2.1 + 0)) (2*Real.pi),
          pymod (snapHalfPi (-t.2.1 + 0)) (2*Real.pi), ?_⟩
  unfold u3_to_u3
  rw [show t.2.2 + -t.2.2 = (0:ℝ) by ring, yzy_id t.1]
  show round_to_half_pi 0 (t.2.1 + 0) (-t.2.1 + 0) = _
  rw [round_ok _ _ _ (le_of_lt Real.pi_pos), snap_zero]

/-- C9: whenever the pass processes a SWAP node without error, each of the
two operand wires ends up holding the state the other operand wire held
immediately before the node, and every other wire's entry is unchanged (in
the removed branch no exchange runs, but there the two entries were equal). -/
theorem c9_swap_exchanges_states (store : Store) (q1 q2 : ℕ) (a : SwapAction)
    (st : Store) (h : runSwapNode store q1 q2 = .ok (a, st)) :
    st q1 = store q2 ∧ st q2 = store q1 ∧
    ∀ w, w ≠ q1 → w ≠ q2 → st w = store w := by
  rcases runSwapNode_store store q1 q2 a st h with ⟨heq, hst⟩ | ⟨hne, hst⟩
  · subst hst
    exact ⟨heq, heq.symm, fun w h1 h2 => rfl⟩
  · subst hst
    have hq : q1 ≠ q2 := fun hc => hne (by rw [hc])
    exact ⟨exchange_fst _ _ _, exchange_snd _ _ _ hq,
      fun w h1 h2 => exchange_other _ _ _ _ h1 h2⟩

/-- Witness for C9 at a concrete one-known/one-unknown store: after the SWAP
the second wire holds the state the first wire held. -/
theorem c9_swap_exchanges_states_witness :
    exchange (fun w => if w = 0 then some ((0:ℝ), (0:ℝ), (0:ℝ)) else none) 0 1 1 =
      some ((0:ℝ), (0:ℝ), (0:ℝ)) := by
  have hrun : runSwapNode (fun w => if w = 0 then some ((0:ℝ), (0:ℝ), (0:ℝ)) else none) 0 1 =
      .ok (.replaced (aswapReplacement .left (0, 0, 0)),
           exchange (fun w => if w = 0 then some ((0:ℝ), (0:ℝ), (0:ℝ)) else none) 0 1) := by
    unfold runSwapNode
    rw [show ((fun w => if w = 0 then some ((0:ℝ), (0:ℝ), (0:ℝ)) else none : Store) 0) =
          some ((0:ℝ), (0:ℝ), (0:ℝ)) by norm_num]
    rw [show ((fun w => if w = 0 then some ((0:ℝ), (0:ℝ), (0:ℝ)) else none : Store) 1) =
          none by norm_num]
    rw [swapDecision_left]
    rfl
  have h2 := (c9_swap_exchanges_states _ 0 1 _ _ hrun).2.1
  norm_num at h2
  exact h2

/-- C1: a SWAP node whose two operand wires are both Unknown (`None`) is
REMOVED by the pass, not left unchanged: `swap_can_be_removed` is Python `==`
on the stored entries and `None == None` holds, so the removal branch fires
and deletes the node (with no exchange, via `continue`). -/
theorem c1_both_unknown_swap_removed :
    swapDecision none none = .ok .removed ∧
    runSwapNode (fun _ => none) 0 1 = .ok (.removed, fun _ => none) := by
  refine ⟨swapDecision_eq none, ?_⟩
  unfold runSwapNode
  dsimp only
  rw [swapDecision_eq]
  rfl

/-- C5 amended: `round_to_half_pi` raises `AngleOutOfRange` exactly when
theta exceeds pi; any theta at or below pi — negative values included — is
returned (possibly snapped), without error and without clamping. -/
theorem c5_error_iff_theta_gt_pi (t p l : ℝ) :
    (round_to_half_pi t p l = .error .angleOutOfRange ↔ Real.pi < t) ∧
    (t ≤ Real.pi → round_to_half_pi t p l =
      .ok (snapHalfPi t, pymod (snapHalfPi p) (2*Real.pi),
           pymod (snapHalfPi l) (2*Real.pi))) := by
  constructor
  · constructor
    · intro h
      by_contra hc
      rw [round_ok t p l (not_lt.1 hc)] at h
      exact Except.noConfusion h
    · intro h
      unfold round_to_half_pi
      rw [if_pos h]
  · exact round_ok t p l

/-- C5 counterexample: the negative angle `-1` is outside `[0, pi]`, yet
`round_to_half_pi` succeeds and returns it unchanged instead of failing. -/
theorem c5_negative_theta_no_error :
    (-1 : ℝ) < 0 ∧ round_to_half_pi (-1) 0 0 = .ok (-1, 0, 0) := by
  refine ⟨by norm_num, ?_⟩
  rw [round_ok _ _ _ (by nlinarith [Real.pi_pos])]
  rw [snap_neg_one, snap_zero, pymod_zero_left]

/-- Witness for C5's amended theorem at theta = 4 > pi: the error fires. -/
theorem c5_error_iff_theta_gt_pi_witness :
    round_to_half_pi 4 0 0 = .error .angleOutOfRange :=
  (c5_error_iff_theta_gt_pi 4 0 0).1.mpr (by nlinarith [Real.pi_lt_315])

/-- C2 amended: in a successful normalization, phi and lambda always land in
`[0, 2*pi)`; an angle is snapped exactly when its `fmod` remainder by `pi/2`
has magnitude below the chop threshold `1e-15` (not within `1e-9` of a
multiple), in which case it is replaced by `round(a/(pi/2)) * pi/2`, and is
passed through otherwise. -/
theorem c2_snapping_amended (t p l : ℝ) (r : Triple)
    (h : round_to_half_pi t p l = .ok r) :
    (0 ≤ r.2.1 ∧ r.2.1 < 2*Real.pi ∧ 0 ≤ r.2.2 ∧ r.2.2 < 2*Real.pi) ∧
    (|fmod t (Real.pi/2)| < 1/10^15 → r.1 = (pyRound (t/(Real.pi/2)) : ℝ) * (Real.pi/2)) ∧
    (¬ |fmod t (Real.pi/2)| < 1/10^15 → r.1 = t) ∧
    (|fmod p (Real.pi/2)| < 1/10^15 →
      r.2.1 = pymod ((pyRound (p/(Real.pi/2)) : ℝ) * (Real.pi/2)) (2*Real.pi)) ∧
    (¬ |fmod p (Real.pi/2)| < 1/10^15 → r.2.1 = pymod p (2*Real.pi)) ∧
    (|fmod l (Real.pi/2)| < 1/10^15 →
      r.2.2 = pymod ((pyRound (l/(Real.pi/2)) : ℝ) * (Real.pi/2)) (2*Real.pi)) ∧
    (¬ |fmod l (Real.pi/2)| < 1/10^15 → r.2.2 = pymod l (2*Real.pi)) := by
  unfold round_to_half_pi at h
  by_cases hc : Real.pi < t
  · rw [if_pos hc] at h
    exact absurd h (by simp)
  · rw [if_neg hc] at h
    simp only [Except.ok.injEq] at h
    subst h
    refine ⟨⟨pymod_nonneg _ _ (by positivity), pymod_lt _ _ (by positivity),
             pymod_nonneg _ _ (by positivity), pymod_lt _ _ (by positivity)⟩,
           ?_, ?_, ?_, ?_, ?_, ?_⟩
    · intro hs
      dsimp only
      unfold snapHalfPi
      rw [if_pos hs]
    · intro hs
      dsimp only
      unfold snapHalfPi
      rw [if_neg hs]
    · intro hs
      dsimp only
      unfold snapHalfPi
      rw [if_pos hs]
    · intro hs
      dsimp only
      unfold snapHalfPi
      rw [if_neg hs]
    · intro hs
      dsimp only
      unfold snapHalfPi
      rw [if_pos hs]
    · intro hs
      dsimp only
      unfold snapHalfPi
      rw [if_neg hs]

/-- Witness for C2's amended theorem at `(0, pi, 0)`: the returned phi obeys
the `[0, 2*pi)` bounds. -/
theorem c2_snapping_amended_witness : (0:ℝ) ≤ Real.pi ∧ Real.pi < 2*Real.pi := by
  have hr : round_to_half_pi 0 Real.pi 0 = .ok (0, Real.pi, 0) := by
    rw [round_ok _ _ _ (le_of_lt Real.pi_pos), snap_zero, snap_pi, pymod_pi, pymod_zero_left]
  have h := (c2_snapping_amended 0 Real.pi 0 (0, Real.pi, 0) hr).1
  exact ⟨h.1, h.2.1⟩

/-- C2 counterexample: the angle `pi/2 + 1e-12` lies within `1e-9` of the
multiple `1 * (pi/2)`, yet the returned phi is not that multiple — the code
snaps with threshold `1e-15` on the fmod remainder, not `1e-9`. -/
theorem c2_within_1e9_not_snapped :
    |(Real.pi/2 + 1/10^12) - 1 * (Real.pi/2)| ≤ 1/10^9 ∧
    round_to_half_pi 0 (Real.pi/2 + 1/10^12) 0 = .ok (0, Real.pi/2 + 1/10^12, 0) ∧
    Real.pi/2 + 1/10^12 ≠ 1 * (Real.pi/2) := by
  refine ⟨?_, ?_, ?_⟩
  · rw [one_mul, add_sub_cancel_left, abs_of_pos (by norm_num)]
    norm_num
  · rw [round_ok _ _ _ (le_of_lt Real.pi_pos)]
    rw [snap_zero, snap_near_half_pi, pymod_zero_left, pymod_near_half_pi]
  · rw [one_mul]
    intro hc
    have h0 : (1/10^12 : ℝ) = 0 := by linarith [hc]
    norm_num at h0

/-- C3 amended: for both-Known wires with different triples the SWAP is
replaced by exactly two single-qubit u3 correction gates (one per wire,
computed by u3_to_u3 in each direction) and no two-qubit gate; the
triple-level roundtrip equality claimed alongside does not hold in general. -/
theorem c3_replaced_two_u3_amended (t1 t2 : Triple) (hne : t1 ≠ t2)
    (c1 c2 : Triple) (h1 : u3_to_u3 t1 t2 = .ok c1) (h2 : u3_to_u3 t2 t1 = .ok c2) :
    swapDecision (some t1) (some t2) =
      .ok (.replaced [.u3 c1.1 c1.2.1 c1.2.2 0, .u3 c2.1 c2.2.1 c2.2.2 1]) ∧
    ([SubGate.u3 c1.1 c1.2.1 c1.2.2 0,
      SubGate.u3 c2.1 c2.2.1 c2.2.2 1].any isAswap) = false := by
  exact ⟨swapDecision_both t1 t2 c1 c2 hne h1 h2, rfl⟩

/-- Witness for C3's amended theorem at the reachable pair `(0, pi, pi)`
(wire after H, H) and `(0, 0, 0)` (untouched wire). -/
theorem c3_replaced_two_u3_amended_witness :
    swapDecision (some ((0:ℝ), Real.pi, Real.pi)) (some ((0:ℝ), (0:ℝ), (0:ℝ))) =
      .ok (.replaced [.u3 0 Real.pi Real.pi 0, .u3 0 0 0 1]) ∧
    ([SubGate.u3 0 Real.pi Real.pi 0, SubGate.u3 0 0 0 1].any isAswap) = false := by
  have hne : ((0:ℝ), Real.pi, Real.pi) ≠ ((0:ℝ), (0:ℝ), (0:ℝ)) := by
    simp [Prod.ext_iff, Real.pi_ne_zero]
  exact c3_replaced_two_u3_amended _ _ hne _ _ u3u3_A u3u3_B

/-- C3 counterexample: wire A reaches the triple `(0, pi, pi)` after two H
gates while wire B stays `(0, 0, 0)`; both are Known and different, so the
pass replaces the SWAP, but the corrective triple for A — `(0, pi, pi)` —
composed back onto A's original triple yields `(0, pi, pi)`, not B's triple
`(0, 0, 0)`: its phi misses B's phi by pi, far beyond any snapping
tolerance.  (The two triples describe the same physical state, which is
exactly the z-degenerate case the triple-level claim overlooks.) -/
theorem c3_roundtrip_fails_degenerate :
    u3_update (Real.pi/2, 0, Real.pi) (0, 0, 0) = .ok (Real.pi/2, 0, Real.pi) ∧
    u3_update (Real.pi/2, 0, Real.pi) (Real.pi/2, 0, Real.pi) = .ok (0, Real.pi, Real.pi) ∧
    ((0:ℝ), Real.pi, Real.pi) ≠ ((0:ℝ), (0:ℝ), (0:ℝ)) ∧
    u3_to_u3 ((0:ℝ), Real.pi, Real.pi) ((0:ℝ), (0:ℝ), (0:ℝ)) = .ok (0, Real.pi, Real.pi) ∧
    u3_update ((0:ℝ), Real.pi, Real.pi) ((0:ℝ), Real.pi, Real.pi) = .ok (0, Real.pi, Real.pi) ∧
    (1/10^9 : ℝ) < |Real.pi - 0| := by
  refine ⟨u3H_zero, u3H_plus, by simp [Prod.ext_iff, Real.pi_ne_zero], u3u3_A, u3u3_rt, ?_⟩
  rw [sub_zero, abs_of_pos Real.pi_pos]
  nlinarith [Real.pi_gt_three]

/-- C4 amended: in Scenario B both wires are Known — the H-ed wire holds
`(pi/2, 0, pi)` and the other `(0, 0, 0)` — so the SWAP goes through the
both-known path: it is replaced by two single-qubit u3 corrections (each the
H-like triple `(pi/2, 0, pi)`) and no two-qubit asymmetric primitive; the
asymmetric-primitive path requires exactly one side to be Unknown. -/
theorem c4_scenarioB_amended :
    u3_update (Real.pi/2, 0, Real.pi) (0, 0, 0) = .ok (Real.pi/2, 0, Real.pi) ∧
    swapDecision (some (Real.pi/2, 0, Real.pi)) (some ((0:ℝ), (0:ℝ), (0:ℝ))) =
      .ok (.replaced [.u3 (Real.pi/2) 0 Real.pi 0, .u3 (Real.pi/2) 0 Real.pi 1]) ∧
    ([SubGate.u3 (Real.pi/2) 0 Real.pi 0,
      SubGate.u3 (Real.pi/2) 0 Real.pi 1].any isAswap) = false ∧
    (∀ t : Triple, swap_can_be_replaced (some t) none = .left) ∧
    (∀ t : Triple, swap_can_be_replaced none (some t) = .right) ∧
    (∀ t1 t2 : Triple, swap_can_be_replaced (some t1) (some t2) = .both) := by
  have hne : ((Real.pi/2, 0, Real.pi) : Triple) ≠ ((0:ℝ), (0:ℝ), (0:ℝ)) := by
    simp [Prod.ext_iff, Real.pi_ne_zero]
  exact ⟨u3H_zero, swapDecision_both _ _ _ _ hne u3u3_C u3u3_D, rfl,
    fun t => rfl, fun t => rfl, fun t1 t2 => rfl⟩

/-- C4 counterexample: in Scenario B the replacement subgraph consists of two
single-qubit u3 gates and contains no asymmetric two-qubit exchange
primitive, contradicting the claimed primitive-alone replacement. -/
theorem c4_scenarioB_two_u3_not_aswap :
    u3_update (Real.pi/2, 0, Real.pi) (0, 0, 0) = .ok (Real.pi/2, 0, Real.pi) ∧
    swapDecision (some (Real.pi/2, 0, Real.pi)) (some ((0:ℝ), (0:ℝ), (0:ℝ))) =
      .ok (.replaced [.u3 (Real.pi/2) 0 Real.pi 0, .u3 (Real.pi/2) 0 Real.pi 1]) ∧
    ([SubGate.u3 (Real.pi/2) 0 Real.pi 0,
      SubGate.u3 (Real.pi/2) 0 Real.pi 1].any isAswap) = false ∧
    ([SubGate.u3 (Real.pi/2) 0 Real.pi 0,
      SubGate.u3 (Real.pi/2) 0 Real.pi 1].length) = 2 := by
  have hne : ((Real.pi/2, 0, Real.pi) : Triple) ≠ ((0:ℝ), (0:ℝ), (0:ℝ)) := by
    simp [Prod.ext_iff, Real.pi_ne_zero]
  exact ⟨u3H_zero, swapDecision_both _ _ _ _ hne u3u3_C u3u3_D, rfl, rfl⟩

/-- C6 amended: a single-qubit node with an unrecognized gate kind does not
abort the pass: run's dispatch sends it to the catch-all branch that marks
its operand wires Unknown and continues.  The UnsupportedGate error lives
only in single_gates_wire_status, which raises it when invoked directly on
an unrecognized kind with a Known wire — a call the traversal never makes. -/
theorem c6_unrecognized_amended :
    (∀ (store : Store) (q : ℕ),
      runNode store ⟨.other, [q]⟩ = .ok (Function.update store q none, none)) ∧
    (∀ (store : Store) (q : ℕ) (t : Triple), store q = some t →
      single_gates_wire_status store q .other = .error .unsupportedGate) := by
  refine ⟨fun store q => rfl, fun store q t h => ?_⟩
  unfold single_gates_wire_status
  rw [h]
  rfl

/-- Witness for C6's amended theorem at a concrete Known store. -/
theorem c6_unrecognized_amended_witness :
    single_gates_wire_status (fun _ => some ((0:ℝ), (0:ℝ), (0:ℝ))) 0 .other =
      .error .unsupportedGate :=
  c6_unrecognized_amended.2 _ 0 ((0:ℝ), (0:ℝ), (0:ℝ)) rfl

/-- C6 counterexample: visiting an unrecognized single-qubit node marks the
wire Unknown and succeeds — the pass does not abort with UnsupportedGate. -/
theorem c6_unrecognized_gate_no_abort :
    runNode (fun _ => some ((0:ℝ), (0:ℝ), (0:ℝ))) ⟨.other, [0]⟩ =
      .ok (Function.update (fun _ => some ((0:ℝ), (0:ℝ), (0:ℝ))) 0 none, none) ∧
    runNode (fun _ => some ((0:ℝ), (0:ℝ), (0:ℝ))) ⟨.other, [0]⟩ ≠
      .error .unsupportedGate := by
  refine ⟨rfl, ?_⟩
  intro hc
  have h1 : runNode (fun _ => some ((0:ℝ), (0:ℝ), (0:ℝ))) ⟨.other, [0]⟩ =
      .ok (Function.update (fun _ => some ((0:ℝ), (0:ℝ), (0:ℝ))) 0 none, none) := rfl
  rw [h1] at hc
  exact Except.noConfusion hc

/-- C8: a SWAP between two wires with exactly equal Known triples is always
removed; in particular (Scenario A) two wires that both start at `(0,0,0)`
and each receive one X gate — reaching the equal triples `(pi, pi, 0)` —
have their SWAP removed, with the store left as is. -/
theorem c8_equal_known_swap_removed :
    (∀ t : Triple, swapDecision (some t) (some t) = .ok .removed) ∧
    runNode (fun _ => some (0, 0, 0)) ⟨.xk, [0]⟩ =
      .ok (Function.update (fun _ => some ((0:ℝ), (0:ℝ), (0:ℝ))) 0
             (some (Real.pi, Real.pi, 0)), none) ∧
    runNode (Function.update (fun _ => some ((0:ℝ), (0:ℝ), (0:ℝ))) 0
               (some (Real.pi, Real.pi, 0))) ⟨.xk, [1]⟩ =
      .ok (Function.update (Function.update (fun _ => some ((0:ℝ), (0:ℝ), (0:ℝ))) 0
             (some (Real.pi, Real.pi, 0))) 1 (some (Real.pi, Real.pi, 0)), none) ∧
    runSwapNode (Function.update (Function.update (fun _ => some ((0:ℝ), (0:ℝ), (0:ℝ))) 0
             (some (Real.pi, Real.pi, 0))) 1 (some (Real.pi, Real.pi, 0))) 0 1 =
      .ok (.removed,
           Function.update (Function.update (fun _ => some ((0:ℝ), (0:ℝ), (0:ℝ))) 0
             (some (Real.pi, Real.pi, 0))) 1 (some (Real.pi, Real.pi, 0))) := by
  refine ⟨fun t => swapDecision_eq _, ?_, ?_, ?_⟩
  · unfold runNode
    dsimp only
    have hs : single_gates_wire_status (fun _ => some ((0:ℝ), (0:ℝ), (0:ℝ))) 0 .xk =
        .ok (Function.update (fun _ => some ((0:ℝ), (0:ℝ), (0:ℝ))) 0
              (some (Real.pi, Real.pi, 0))) := by
      unfold single_gates_wire_status
      show (do
        let t ← u3_update (Real.pi, 0, Real.pi) ((0:ℝ), (0:ℝ), (0:ℝ))
        Except.ok (Function.update (fun _ => some ((0:ℝ), (0:ℝ), (0:ℝ))) 0 (some t))) = _
      rw [u3X_zero]
      rfl
    rw [hs]
    rfl
  · unfold runNode
    dsimp only
    have hs : single_gates_wire_status (Function.update (fun _ => some ((0:ℝ), (0:ℝ), (0:ℝ))) 0
        (some (Real.pi, Real.pi, 0))) 1 .xk =
        .ok (Function.update (Function.update (fun _ => some ((0:ℝ), (0:ℝ), (0:ℝ))) 0
              (some (Real.pi, Real.pi, 0))) 1 (some (Real.pi, Real.pi, 0))) := by
      unfold single_gates_wire_status
      show (do
        let t ← u3_update (Real.pi, 0, Real.pi) ((0:ℝ), (0:ℝ), (0:ℝ))
        Except.ok (Function.update (Function.update (fun _ => some ((0:ℝ), (0:ℝ), (0:ℝ))) 0
          (some (Real.pi, Real.pi, 0))) 1 (some t))) = _
      rw [u3X_zero]
      rfl
    rw [hs]
    rfl
  · have h0 : (Function.update (Function.update (fun _ => some ((0:ℝ), (0:ℝ), (0:ℝ))) 0
        (some (Real.pi, Real.pi, 0))) 1 (some (Real.pi, Real.pi, 0))) 0 =
        some (Real.pi, Real.pi, 0) := by
      rw [Function.update_noteq (by norm_num : (0:ℕ) ≠ 1), Function.update_same]
    have h1 : (Function.update (Function.update (fun _ => some ((0:ℝ), (0:ℝ), (0:ℝ))) 0
        (some (Real.pi, Real.pi, 0))) 1 (some (Real.pi, Real.pi, 0))) 1 =
        some (Real.pi, Real.pi, 0) := Function.update_same _ _ _
    unfold runSwapNode
    rw [h0, h1, swapDecision_eq]
    rfl

/-- C10: the four state classifiers accept exactly the advertised canonical
triples (with exact component values), reject Unknown, and never constrain
the lambda component. -/
theorem c10_classifiers :
    (∀ p l : ℝ, check_Zero_state (some (0, p, l)) = true) ∧
    (∀ p l : ℝ, check_One_state (some (Real.pi, p, l)) = true) ∧
    (∀ l : ℝ, check_Plus_state (some (Real.pi/2, 0, l)) = true) ∧
    (∀ l : ℝ, check_Minus_state (some (Real.pi/2, Real.pi, l)) = true) ∧
    check_Zero_state none = false ∧ check_One_state none = false ∧
    check_Plus_state none = false ∧ check_Minus_state none = false ∧
    (∀ a b l l' : ℝ,
      check_Zero_state (some (a, b, l)) = check_Zero_state (some (a, b, l')) ∧
      check_One_state (some (a, b, l)) = check_One_state (some (a, b, l')) ∧
      check_Plus_state (some (a, b, l)) = check_Plus_state (some (a, b, l')) ∧
      check_Minus_state (some (a, b, l)) = check_Minus_state (some (a, b, l'))) := by
  refine ⟨?_, ?_, ?_, ?_, rfl, rfl, rfl, rfl, fun a b l l' => ⟨rfl, rfl, rfl, rfl⟩⟩
  · intro p l
    unfold check_Zero_state isclose
    rw [decide_eq_true_eq]
    norm_num
  · intro p l
    unfold check_One_state isclose
    rw [decide_eq_true_eq]
    simp only [sub_self, abs_zero]
    positivity
  · intro l
    unfold check_Plus_state isclose
    rw [Bool.and_eq_true, decide_eq_true_eq, decide_eq_true_eq]
    constructor
    · simp only [sub_self, abs_zero]
      positivity
    · norm_num
  · intro l
    unfold check_Minus_state isclose
    rw [Bool.and_eq_true, decide_eq_true_eq, decide_eq_true_eq]
    constructor
    · simp only [sub_self, abs_zero]
      positivity
    · simp only [sub_self, abs_zero]
      positivity
